import Mathlib

/-!
Verification of the DrawCraftAI drawing application core: the placed-image
registry (hit testing, selection, z-order promotion, deletion), the
viewport/pan controller (boundary clamping, initial centering, resize
handling) from `src/app.ts`, and the `/proxy/generate` endpoint of
`proxy-server.js`.  Coordinates are modelled as rationals (exact arithmetic
over the JavaScript number operations used, which are +, -, *, /).
-/

/-- A point in virtual-canvas coordinates (`Point` in app.ts). -/
structure Point where
  x : ℚ
  y : ℚ
deriving DecidableEq, Repr

/-- A placed image (`PlacedImage` in app.ts): axis-aligned box plus selection flag. -/
structure PlacedImage where
  id : String
  url : String
  x : ℚ
  y : ℚ
  width : ℚ
  height : ℚ
  selected : Bool
deriving DecidableEq, Repr

/-- The registry-relevant slice of the `DrawingApp` state: the ordered list
`placedImages` (later = painted on top), the tracked `selectedImageId`,
the recorded drag offset and the current tool name. -/
structure RegistryState where
  placedImages : List PlacedImage
  selectedImageId : Option String
  dragOffsetX : ℚ
  dragOffsetY : ℚ
  currentTool : String
deriving DecidableEq, Repr

/-- The containment test of `selectImageAt`:
`x >= img.x && x <= img.x + img.width && y >= img.y && y <= img.y + img.height`. -/
def containsPoint (img : PlacedImage) (x y : ℚ) : Bool :=
  decide (img.x ≤ x) && decide (x ≤ img.x + img.width) &&
  decide (img.y ≤ y) && decide (y ≤ img.y + img.height)

/-- The search loop of `selectImageAt`: `for (let i = placedImages.length - 1; i >= 0; i--)`
returning the first hit, i.e. `find?` over the reversed list. -/
def hitImage (l : List PlacedImage) (x y : ℚ) : Option PlacedImage :=
  l.reverse.find? (fun img => containsPoint img x y)

/-- `selectImageAt(x, y)` from app.ts: scan placed images from top-most to
bottom-most; on a hit clear every `selected` flag, set the hit image selected,
record its id and the drag offset, rebuild the list with the hit image moved to
the end (`[...placedImages.filter(image => image.id !== img.id), img]`), set the
tool to `select`, and return `true`; on a miss change nothing and return `false`. -/
def selectImageAt (s : RegistryState) (x y : ℚ) : RegistryState × Bool :=
  match hitImage s.placedImages x y with
  | none => (s, false)
  | some img =>
    let cleared := s.placedImages.map (fun image => { image with selected := false })
    let promoted := { img with selected := true }
    ({ s with
        placedImages := cleared.filter (fun image => image.id ≠ img.id) ++ [promoted],
        selectedImageId := some img.id,
        dragOffsetX := x - img.x,
        dragOffsetY := y - img.y,
        currentTool := "select" }, true)

/-- `deselectAllImages()` from app.ts: clear `selected` on every placed image
and null out `selectedImageId`; the order is untouched. -/
def deselectAllImages (s : RegistryState) : RegistryState :=
  { s with
      placedImages := s.placedImages.map (fun img => { img with selected := false }),
      selectedImageId := none }

/-- `deleteSelectedImage()` from app.ts: if `selectedImageId` is set, keep only
the images whose id differs (`placedImages.filter(img => img.id !== this.selectedImageId)`)
and null out `selectedImageId`; otherwise do nothing. -/
def deleteSelectedImage (s : RegistryState) : RegistryState :=
  match s.selectedImageId with
  | none => s
  | some selId =>
    { s with
        placedImages := s.placedImages.filter (fun img => img.id ≠ selId),
        selectedImageId := none }

/-- The synchronous `placeImage` body of `placeImageOnCanvas(imageUrl, position)`
in app.ts, with the decoded image's natural dimensions and the freshly generated
id (`img_${Date.now()}_${random}` in the source) passed as parameters: size the
box to `maxSize = 300` preserving the natural aspect ratio, center it on the
click position, and push the new image (unselected) onto `placedImages`. -/
def placeImageOnCanvas (s : RegistryState) (imageUrl : String) (position : Point)
    (naturalWidth naturalHeight : ℚ) (newId : String) : RegistryState :=
  let maxSize : ℚ := 300
  let aspectRatio := naturalWidth / naturalHeight
  let width0 := maxSize
  let height0 := maxSize / aspectRatio
  let wh := if height0 > maxSize then (maxSize * aspectRatio, maxSize) else (width0, height0)
  let x := position.x - wh.1 / 2
  let y := position.y - wh.2 / 2
  { s with
      placedImages := s.placedImages ++
        [{ id := newId, url := imageUrl, x := x, y := y,
           width := wh.1, height := wh.2, selected := false }] }

/-- The Konva stage slice used by the pan controller: viewport size and the
stage position (the pan offset). -/
structure Stage where
  width : ℚ
  height : ℚ
  x : ℚ
  y : ℚ
deriving DecidableEq, Repr

/-- One axis of `limitDragBoundaries`: the two sequential `if` statements
`if (pos > max) set max; if (pos < min) set min;` where both conditions read the
snapshotted position, so the `min` assignment wins when both fire. -/
def clampAxis (pos maxV minV : ℚ) : ℚ :=
  let afterMax := if pos > maxV then maxV else pos
  if pos < minV then minV else afterMax

/-- `limitDragBoundaries()` from app.ts: `maxX = maxY = 0`,
`minX = -(virtualCanvasWidth - stageWidth)`, `minY = -(virtualCanvasHeight - stageHeight)`,
then clip each coordinate of the stage position. -/
def limitDragBoundaries (virtualCanvasWidth virtualCanvasHeight : ℚ) (st : Stage) : Stage :=
  let maxX : ℚ := 0
  let maxY : ℚ := 0
  let minX := -(virtualCanvasWidth - st.width)
  let minY := -(virtualCanvasHeight - st.height)
  { st with x := clampAxis st.x maxX minX, y := clampAxis st.y maxY minY }

/-- One pan step: a `dragmove` moves the stage position by the drag delta and
the `dragmove` handler installed in `initializeKonva` then runs
`limitDragBoundaries`. -/
def panBy (virtualCanvasWidth virtualCanvasHeight : ℚ) (st : Stage) (dx dy : ℚ) : Stage :=
  limitDragBoundaries virtualCanvasWidth virtualCanvasHeight
    { st with x := st.x + dx, y := st.y + dy }

/-- The canvas/stage slice touched by `initializeCanvas`: the fixed virtual
canvas size (3000x3000 in the source, never reassigned), the HTML canvas size
and the optional Konva stage. -/
structure CanvasState where
  virtualCanvasWidth : ℚ
  virtualCanvasHeight : ℚ
  canvasWidth : ℚ
  canvasHeight : ℚ
  stage : Option Stage
deriving DecidableEq, Repr

/-- The `updateCanvasSize` closure of `initializeCanvas()` in app.ts, run at
startup and on every window resize: set the canvas size to the container rect;
if the stage exists set its size too, and only when the stage position is
exactly `(0, 0)` (JavaScript falsiness of `stage.x()` and `stage.y()`) set the
centered initial offset `(-(virtualW - rectW)/2, -(virtualH - rectH)/2)`.
No other clamping of the position happens here. -/
def updateCanvasSize (s : CanvasState) (rectWidth rectHeight : ℚ) : CanvasState :=
  let s1 := { s with canvasWidth := rectWidth, canvasHeight := rectHeight }
  match s.stage with
  | none => s1
  | some st =>
    let st1 := { st with width := rectWidth, height := rectHeight }
    if st1.x = 0 ∧ st1.y = 0 then
      let offsetX := (s.virtualCanvasWidth - rectWidth) / 2
      let offsetY := (s.virtualCanvasHeight - rectHeight) / 2
      { s1 with stage := some { st1 with x := -offsetX, y := -offsetY } }
    else
      { s1 with stage := some st1 }

/-- The upstream (Clipdrop API) response as observed by the proxy handler:
`response.ok`, `response.status`, the `content-type` header, the body read as
text and the body read as bytes. -/
structure UpstreamResponse where
  ok : Bool
  status : Nat
  contentType : Option String
  bodyText : String
  bodyBytes : List Nat
deriving DecidableEq, Repr

/-- The JSON response produced by the proxy handler: HTTP status plus the
optional body fields it ever sets (`success`, `image`, `error`, `details`, and
the extra `status` echo included in the upstream-error body). -/
structure ProxyResponse where
  status : Nat
  success : Option Bool
  image : Option String
  error : Option String
  details : Option String
  bodyStatus : Option Nat
deriving DecidableEq, Repr

/-- The standard base64 alphabet used by Node's `Buffer.toString('base64')`. -/
def base64Alphabet : List Char :=
  "ABCDEFGHIJKLMNOPQRSTUVWXYZabcdefghijklmnopqrstuvwxyz0123456789+/".toList

/-- The base64 digit for a 6-bit value. -/
def base64Digit (n : Nat) : Char :=
  base64Alphabet.getD n 'A'

/-- Standard base64 encoding with `=` padding, as performed by
`imageBuffer.toString('base64')` in proxy-server.js. -/
def base64Encode : List Nat → String
  | [] => ""
  | [b1] =>
    String.mk [base64Digit (b1 / 4 % 64), base64Digit (b1 % 4 * 16), '=', '=']
  | [b1, b2] =>
    String.mk [base64Digit (b1 / 4 % 64), base64Digit (b1 % 4 * 16 + b2 / 16 % 16),
               base64Digit (b2 % 16 * 4), '=']
  | b1 :: b2 :: b3 :: rest =>
    String.mk [base64Digit (b1 / 4 % 64), base64Digit (b1 % 4 * 16 + b2 / 16 % 16),
               base64Digit (b2 % 16 * 4 + b3 / 64 % 4), base64Digit (b3 % 64)]
      ++ base64Encode rest

/-- Whether `pre` is a prefix of `l`, by character comparison. -/
def charsHasPre : List Char → List Char → Bool
  | [], _ => true
  | _ :: _, [] => false
  | a :: as, b :: bs => a = b && charsHasPre as bs

/-- Whether `needle` occurs as a contiguous substring of the haystack:
JavaScript's `String.prototype.includes`. -/
def charsContains (needle : List Char) : List Char → Bool
  | [] => needle.isEmpty
  | c :: cs => charsHasPre needle (c :: cs) || charsContains needle cs

/-- The `POST /proxy/generate` handler of proxy-server.js, with the multipart
parse folded into the collected `prompt` value (busboy initializes `prompt` to
the empty string, so an absent field and an empty field coincide) and the
upstream `fetch` result passed in.  `if (!API_KEY)` treats a missing header and
an empty header alike (JavaScript falsiness). -/
def proxyGenerate (apiKey : Option String) (prompt : String)
    (upstream : UpstreamResponse) : ProxyResponse :=
  if apiKey = none ∨ apiKey = some "" then
    { status := 401, success := none, image := none,
      error := some "API key is required", details := none, bodyStatus := none }
  else if prompt = "" then
    { status := 400, success := none, image := none,
      error := some "Prompt is required", details := none, bodyStatus := none }
  else if upstream.ok = false then
    { status := upstream.status, success := none, image := none,
      error := some "Error from Clipdrop API", details := some upstream.bodyText,
      bodyStatus := some upstream.status }
  else
    match upstream.contentType with
    | some ct =>
      if charsContains "image".toList ct.toList then
        { status := 200, success := some true,
          image := some (base64Encode upstream.bodyBytes),
          error := none, details := none, bodyStatus := none }
      else
        { status := 502, success := none, image := none,
          error := some "Unexpected response type from Clipdrop API",
          details := some upstream.bodyText, bodyStatus := none }
    | none =>
      { status := 502, success := none, image := none,
        error := some "Unexpected response type from Clipdrop API",
        details := some upstream.bodyText, bodyStatus := none }

/-- Number of placed images currently flagged selected. -/
def selectedCount (l : List PlacedImage) : Nat :=
  (l.filter (fun img => img.selected = true)).length

/-- Every field of a placed image except the `selected` flag. -/
def coreFields (img : PlacedImage) : String × String × ℚ × ℚ × ℚ × ℚ :=
  (img.id, img.url, img.x, img.y, img.width, img.height)

/-- The states the app actually reaches: `selectedImageId` tracks exactly the
images flagged selected (it is set together with the flag in `selectImageAt`
and cleared together with it in `deselectAllImages`/`deleteSelectedImage`). -/
def coherentSelection (s : RegistryState) : Prop :=
  (∀ img ∈ s.placedImages, img.selected = true → s.selectedImageId = some img.id) ∧
  (match s.selectedImageId with
   | none => True
   | some i => ∃ img ∈ s.placedImages, img.selected = true ∧ img.id = i)

/-- A 100x100 image placed at the origin. -/
def imgA100 : PlacedImage :=
  { id := "A", url := "a.png", x := 0, y := 0, width := 100, height := 100, selected := false }

/-- A second 100x100 image fully overlapping `imgA100`. -/
def imgB100 : PlacedImage :=
  { id := "B", url := "b.png", x := 0, y := 0, width := 100, height := 100, selected := false }

/-- Registry with the two overlapping images, A placed before B. -/
def regAB : RegistryState :=
  { placedImages := [imgA100, imgB100], selectedImageId := none,
    dragOffsetX := 0, dragOffsetY := 0, currentTool := "brush" }

/-- Registry in the Selected state: one image, flagged selected and tracked. -/
def regSel : RegistryState :=
  { placedImages :=
      [{ id := "A", url := "a.png", x := 0, y := 0, width := 100, height := 100,
         selected := true }],
    selectedImageId := some "A", dragOffsetX := 50, dragOffsetY := 50,
    currentTool := "select" }

/-- Registry with an unselected image A and a selected, tracked image B. -/
def regDel : RegistryState :=
  { placedImages :=
      [imgA100,
       { id := "B", url := "b.png", x := 200, y := 200, width := 100, height := 100,
         selected := true }],
    selectedImageId := some "B", dragOffsetX := 0, dragOffsetY := 0,
    currentTool := "select" }

/-- The canvas state right after stage construction: virtual canvas 3000x3000
and the stage still at position (0, 0). -/
def initialCanvasState : CanvasState :=
  { virtualCanvasWidth := 3000, virtualCanvasHeight := 3000,
    canvasWidth := 0, canvasHeight := 0,
    stage := some { width := 0, height := 0, x := 0, y := 0 } }

/-- An upstream response carrying a PNG. -/
def upstreamImg : UpstreamResponse :=
  { ok := true, status := 200, contentType := some "image/png",
    bodyText := "", bodyBytes := [137, 80, 78, 71] }

/-! ## Theorems -/

/-- A downward scan (`find?` over the reversed list) returns the element at the
highest index satisfying the predicate. -/
theorem find?_reverse_eq_of_last {α : Type} (l : List α) (p : α → Bool) (i : Nat)
    (hi : i < l.length) (hp : p l[i] = true)
    (htop : ∀ j (hj : j < l.length), i < j → p l[j] = false) :
    l.reverse.find? p = some l[i] := by
  conv_lhs => rw [← List.take_append_drop (i+1) l]
  rw [List.reverse_append, List.find?_append]
  have hdrop : (l.drop (i+1)).reverse.find? p = none := by
    rw [List.find?_eq_none]
    intro x hx
    rw [List.mem_reverse, List.mem_iff_getElem] at hx
    obtain ⟨k, hk, rfl⟩ := hx
    rw [List.getElem_drop]
    have hlen : k < l.length - (i+1) := by simpa using hk
    have := htop (i + 1 + k) (by omega) (by omega)
    simp [this]
  have htake : (l.take (i+1)).reverse.find? p = some l[i] := by
    rw [List.take_succ, List.getElem?_eq_getElem hi]
    simp only [Option.toList_some, List.reverse_append, List.reverse_singleton,
      List.singleton_append]
    exact List.find?_cons_of_pos _ hp
  rw [hdrop, htake]
  rfl

/-- C1: hit testing scans the placed images from the last element (top-most) to
the first (bottom-most) and selects the image at the highest index whose
axis-aligned box contains the query point; the containment test uses inclusive
bounds on both axes, so of two overlapping images both containing the point the
one later in placement order wins. -/
theorem selectImageAt_topmost_inclusive (s : RegistryState) (x y : ℚ) (i : Nat)
    (hi : i < s.placedImages.length)
    (hc : containsPoint s.placedImages[i] x y = true)
    (htop : ∀ j (hj : j < s.placedImages.length), i < j →
      containsPoint s.placedImages[j] x y = false) :
    hitImage s.placedImages x y = some s.placedImages[i] ∧
    (selectImageAt s x y).2 = true ∧
    (∀ img : PlacedImage, containsPoint img x y = true ↔
      (img.x ≤ x ∧ x ≤ img.x + img.width ∧ img.y ≤ y ∧ y ≤ img.y + img.height)) := by
  have hfind : hitImage s.placedImages x y = some s.placedImages[i] :=
    find?_reverse_eq_of_last _ _ i hi hc htop
  refine ⟨hfind, ?_, ?_⟩
  · simp [selectImageAt, hfind]
  · intro img
    simp [containsPoint, and_assoc]

/-- C1 witness: with images A then B placed on the same 100x100 box, hit
testing their shared interior point (50, 50) returns B, the later one. -/
theorem selectImageAt_topmost_inclusive_witness :
    hitImage regAB.placedImages 50 50 = some imgB100 ∧
    (selectImageAt regAB 50 50).2 = true :=
  ⟨(selectImageAt_topmost_inclusive regAB 50 50 1 (by decide)
      (by norm_num [regAB, imgA100, imgB100, containsPoint])
      (by intro j hj hlt; have h2 : regAB.placedImages.length = 2 := rfl; omega)).1,
   (selectImageAt_topmost_inclusive regAB 50 50 1 (by decide)
      (by norm_num [regAB, imgA100, imgB100, containsPoint])
      (by intro j hj hlt; have h2 : regAB.placedImages.length = 2 := rfl; omega)).2.1⟩

/-- The two sequential boundary checks of `limitDragBoundaries` on one axis
clip the position into `[minV, maxV]` and act as a hard clip: an in-range
position is untouched and an out-of-range one lands exactly on the violated
bound. -/
theorem clampAxis_spec (pos maxV minV : ℚ) (h : minV ≤ maxV) :
    minV ≤ clampAxis pos maxV minV ∧ clampAxis pos maxV minV ≤ maxV ∧
    (maxV < pos → clampAxis pos maxV minV = maxV) ∧
    (pos < minV → clampAxis pos maxV minV = minV) ∧
    (minV ≤ pos → pos ≤ maxV → clampAxis pos maxV minV = pos) := by
  unfold clampAxis
  split_ifs <;>
    refine ⟨by linarith, by linarith, ?_, ?_, ?_⟩ <;> intros <;> first | rfl | linarith

/-- C3: when the virtual canvas is at least as large as the viewport, any pan
from any starting offset followed by `limitDragBoundaries` lands in the
invariant range `0 <= -offset <= virtual - viewport` on both axes, and the
clamping is a hard clip: a request inside the range is kept exactly, one
beyond a bound snaps exactly to that bound. -/
theorem pan_clamps_to_bounds (vw vh : ℚ) (st : Stage) (dx dy : ℚ)
    (hw : st.width ≤ vw) (hh : st.height ≤ vh) :
    0 ≤ -(panBy vw vh st dx dy).x ∧ -(panBy vw vh st dx dy).x ≤ vw - st.width ∧
    0 ≤ -(panBy vw vh st dx dy).y ∧ -(panBy vw vh st dx dy).y ≤ vh - st.height ∧
    (0 < st.x + dx → (panBy vw vh st dx dy).x = 0) ∧
    (st.x + dx < -(vw - st.width) → (panBy vw vh st dx dy).x = -(vw - st.width)) ∧
    (-(vw - st.width) ≤ st.x + dx → st.x + dx ≤ 0 → (panBy vw vh st dx dy).x = st.x + dx) ∧
    (0 < st.y + dy → (panBy vw vh st dx dy).y = 0) ∧
    (st.y + dy < -(vh - st.height) → (panBy vw vh st dx dy).y = -(vh - st.height)) ∧
    (-(vh - st.height) ≤ st.y + dy → st.y + dy ≤ 0 → (panBy vw vh st dx dy).y = st.y + dy) := by
  have hx := clampAxis_spec (st.x + dx) 0 (-(vw - st.width)) (by linarith)
  have hy := clampAxis_spec (st.y + dy) 0 (-(vh - st.height)) (by linarith)
  have hpx : (panBy vw vh st dx dy).x = clampAxis (st.x + dx) 0 (-(vw - st.width)) := rfl
  have hpy : (panBy vw vh st dx dy).y = clampAxis (st.y + dy) 0 (-(vh - st.height)) := rfl
  rw [hpx, hpy]
  obtain ⟨h1, h2, h3, h4, h5⟩ := hx
  obtain ⟨k1, k2, k3, k4, k5⟩ := hy
  exact ⟨by linarith, by linarith, by linarith, by linarith, h3, h4, h5, k3, k4, k5⟩

/-- C3 witness: from offset (-1100, -1200) in the 3000x3000 canvas with an
800x600 viewport, the pan by (-2500, 0) is clipped into the invariant range. -/
theorem pan_clamps_to_bounds_witness :
    0 ≤ -(panBy 3000 3000 ⟨800, 600, -1100, -1200⟩ (-2500) 0).x ∧
    -(panBy 3000 3000 ⟨800, 600, -1100, -1200⟩ (-2500) 0).x ≤ 3000 - (800 : ℚ) :=
  ⟨(pan_clamps_to_bounds 3000 3000 ⟨800, 600, -1100, -1200⟩ (-2500) 0
      (by norm_num) (by norm_num)).1,
   (pan_clamps_to_bounds 3000 3000 ⟨800, 600, -1100, -1200⟩ (-2500) 0
      (by norm_num) (by norm_num)).2.1⟩

/-- C5: with the 3000x3000 virtual canvas and an 800x600 viewport, the startup
sizing centers the view at (-1100, -1200), and panning by (-2500, 0) from
there clamps to exactly (-2200, -1200), the x lower bound being -(3000-800). -/
theorem startup_center_then_pan_scenario :
    (updateCanvasSize initialCanvasState 800 600).stage =
      some { width := 800, height := 600, x := -1100, y := -1200 } ∧
    panBy 3000 3000 { width := 800, height := 600, x := -1100, y := -1200 } (-2500) 0 =
      { width := 800, height := 600, x := -2200, y := -1200 } ∧
    -((3000 : ℚ) - 800) = -2200 := by
  refine ⟨?_, ?_, by norm_num⟩
  · norm_num [updateCanvasSize, initialCanvasState]
  · norm_num [panBy, limitDragBoundaries, clampAxis, Stage.mk.injEq]

/-- C4 counterexample: a 100x50 source, although within the 300-unit cap, is
scaled up to a 300x150 box rather than kept at its natural size. -/
theorem place_upscales_small_source :
    (placeImageOnCanvas regAB "x.png" ⟨500, 500⟩ 100 50 "n").placedImages.map
      (fun img => (img.width, img.height)) = [(100, 100), (100, 100), (300, 150)] ∧
    ¬ ((300 : ℚ) = 100 ∧ (150 : ℚ) = 50) := by
  constructor
  · norm_num [placeImageOnCanvas, regAB, imgA100, imgB100]
  · norm_num

/-- C4 amended: for positive natural dimensions, `placeImageOnCanvas` appends
to the end of the order one unselected image with the supplied fresh id whose
box is centered on the given point, has exactly the natural aspect ratio, and
whose longer edge always equals 300 — the source is scaled to the cap whether
its natural size exceeds 300 or not; the operation is total. -/
theorem placeImageOnCanvas_spec (s : RegistryState) (url : String) (pos : Point)
    (nw nh : ℚ) (nid : String) (hw : 0 < nw) (hh : 0 < nh) :
    ∃ img : PlacedImage,
      (placeImageOnCanvas s url pos nw nh nid).placedImages = s.placedImages ++ [img] ∧
      img.id = nid ∧ img.url = url ∧ img.selected = false ∧
      img.x + img.width / 2 = pos.x ∧ img.y + img.height / 2 = pos.y ∧
      img.width * nh = img.height * nw ∧
      max img.width img.height = 300 ∧ 0 < img.width ∧ 0 < img.height := by
  have har : 0 < nw / nh := div_pos hw hh
  have hh0 : nh ≠ 0 := ne_of_gt hh
  by_cases hc : (300 : ℚ) / (nw / nh) > 300
  · simp only [placeImageOnCanvas, if_pos hc]
    refine ⟨_, rfl, rfl, rfl, rfl, by ring, by ring, ?_, ?_, ?_, by norm_num⟩
    · field_simp
    · have hlt : 300 * (nw / nh) < 300 := (lt_div_iff₀ har).mp hc
      exact max_eq_right (le_of_lt hlt)
    · exact mul_pos (by norm_num) har
  · simp only [placeImageOnCanvas, if_neg hc]
    refine ⟨_, rfl, rfl, rfl, rfl, by ring, by ring, ?_, ?_, by norm_num, ?_⟩
    · field_simp
    · have hle : 300 / (nw / nh) ≤ 300 := le_of_not_lt hc
      exact max_eq_left hle
    · exact div_pos (by norm_num) har

/-- C4 witness: placing a 1600x800 source centered at (500, 500) appends a
300x150 box at origin (350, 425). -/
theorem placeImageOnCanvas_spec_witness :
    ∃ img : PlacedImage,
      (placeImageOnCanvas regAB "x.png" ⟨500, 500⟩ 1600 800 "n").placedImages =
        regAB.placedImages ++ [img] ∧
      img.id = "n" ∧ img.url = "x.png" ∧ img.selected = false ∧
      img.x + img.width / 2 = 500 ∧ img.y + img.height / 2 = 500 ∧
      img.width * 800 = img.height * 1600 ∧
      max img.width img.height = 300 ∧ 0 < img.width ∧ 0 < img.height := by
  simpa using
    placeImageOnCanvas_spec regAB "x.png" ⟨500, 500⟩ 1600 800 "n"
      (by norm_num) (by norm_num)

/-- C6 counterexample: resizing the viewport from 800x600 to 2900x600 while
the offset sits at the old x bound -2200 leaves the offset untouched even
though the invariant now requires -offset.x <= 3000 - 2900 = 100: the resize
handler does not re-clamp. -/
theorem resize_skips_reclamp :
    (updateCanvasSize
        { virtualCanvasWidth := 3000, virtualCanvasHeight := 3000,
          canvasWidth := 800, canvasHeight := 600,
          stage := some { width := 800, height := 600, x := -2200, y := -1200 } }
        2900 600).stage =
      some { width := 2900, height := 600, x := -2200, y := -1200 } ∧
    ¬ (-(-2200 : ℚ) ≤ 3000 - 2900) := by
  constructor
  · norm_num [updateCanvasSize]
  · norm_num

/-- C6 amended: the resize handler updates the canvas and stage sizes and
leaves the virtual canvas size unchanged, but performs no re-clamping of the
pan offset: the offset is kept exactly as it was, except that an offset of
exactly (0, 0) is replaced by the centered initial offset. -/
theorem updateCanvasSize_spec (s : CanvasState) (rectW rectH : ℚ) (st : Stage)
    (hst : s.stage = some st) :
    (updateCanvasSize s rectW rectH).virtualCanvasWidth = s.virtualCanvasWidth ∧
    (updateCanvasSize s rectW rectH).virtualCanvasHeight = s.virtualCanvasHeight ∧
    (updateCanvasSize s rectW rectH).canvasWidth = rectW ∧
    (updateCanvasSize s rectW rectH).canvasHeight = rectH ∧
    ∃ st2 : Stage, (updateCanvasSize s rectW rectH).stage = some st2 ∧
      st2.width = rectW ∧ st2.height = rectH ∧
      (¬ (st.x = 0 ∧ st.y = 0) → st2.x = st.x ∧ st2.y = st.y) ∧
      (st.x = 0 ∧ st.y = 0 →
        st2.x = -((s.virtualCanvasWidth - rectW) / 2) ∧
        st2.y = -((s.virtualCanvasHeight - rectH) / 2)) := by
  simp only [updateCanvasSize, hst]
  by_cases hz : st.x = 0 ∧ st.y = 0
  · rw [if_pos hz]
    exact ⟨rfl, rfl, rfl, rfl, _, rfl, rfl, rfl,
      fun h => absurd hz h, fun _ => ⟨rfl, rfl⟩⟩
  · rw [if_neg hz]
    exact ⟨rfl, rfl, rfl, rfl, _, rfl, rfl, rfl,
      fun _ => ⟨rfl, rfl⟩, fun h => absurd h hz⟩

/-- C6 witness: resizing the freshly constructed canvas to 800x600 keeps the
3000x3000 virtual size and records the new viewport size. -/
theorem updateCanvasSize_spec_witness :
    (updateCanvasSize initialCanvasState 800 600).virtualCanvasWidth =
      initialCanvasState.virtualCanvasWidth ∧
    (updateCanvasSize initialCanvasState 800 600).canvasWidth = 800 :=
  ⟨(updateCanvasSize_spec initialCanvasState 800 600 ⟨0, 0, 0, 0⟩ rfl).1,
   (updateCanvasSize_spec initialCanvasState 800 600 ⟨0, 0, 0, 0⟩ rfl).2.2.1⟩

/-- C7 counterexample: in the Selected state `regSel`, the hit test at the
point (500, 500) misses every placed image, yet the state is returned
unchanged and the image is still selected: the registry does not transition
to Idle on a miss. -/
theorem miss_keeps_selection :
    (∀ img ∈ regSel.placedImages, containsPoint img 500 500 = false) ∧
    selectImageAt regSel 500 500 = (regSel, false) ∧
    regSel.placedImages.map (fun img => img.selected) = [true] := by
  have hc : ∀ img ∈ regSel.placedImages, containsPoint img 500 500 = false := by
    intro img hm
    simp [regSel] at hm
    subst hm
    norm_num [containsPoint]
  have hmiss : hitImage regSel.placedImages 500 500 = none := by
    rw [hitImage, List.find?_eq_none]
    intro img hm
    simp [hc img (List.mem_reverse.mp hm)]
  exact ⟨hc, by simp [selectImageAt, hmiss], rfl⟩

/-- C7 amended: a hit-test miss leaves the registry state completely
unchanged — in particular a selected image stays selected — and the
Selected-to-Idle transition is performed only by the explicit
`deselectAllImages`, which clears every `selected` flag and the tracked id. -/
theorem selectImageAt_miss_spec (s : RegistryState) (x y : ℚ)
    (h : hitImage s.placedImages x y = none) :
    selectImageAt s x y = (s, false) ∧
    (∀ img ∈ (deselectAllImages s).placedImages, img.selected = false) ∧
    (deselectAllImages s).selectedImageId = none := by
  refine ⟨by simp [selectImageAt, h], ?_, rfl⟩
  intro img hm
  simp [deselectAllImages] at hm
  obtain ⟨a, ha, rfl⟩ := hm
  rfl

/-- C7 witness: the miss at (500, 500) in the Selected state returns the state
unchanged with the `false` flag. -/
theorem selectImageAt_miss_spec_witness :
    selectImageAt regSel 500 500 = (regSel, false) :=
  (selectImageAt_miss_spec regSel 500 500
    (by
      rw [hitImage, List.find?_eq_none]
      intro img hm
      simp [regSel] at hm
      subst hm
      norm_num [containsPoint])).1

/-- C9 counterexample: the proxy's validation failures answer 401 and 400 with
a body holding only an `error` message — the `details` field the claim
requires for validation failures is absent from both. -/
theorem proxy_validation_body_lacks_details :
    (proxyGenerate none "hello" upstreamImg).status = 401 ∧
    (proxyGenerate none "hello" upstreamImg).error = some "API key is required" ∧
    (proxyGenerate none "hello" upstreamImg).details = none ∧
    (proxyGenerate (some "k") "" upstreamImg).status = 400 ∧
    (proxyGenerate (some "k") "" upstreamImg).error = some "Prompt is required" ∧
    (proxyGenerate (some "k") "" upstreamImg).details = none := by
  decide

/-- C9 amended: a missing API key gives 401 and a missing or empty prompt 400,
each with an `{error}` body (no `details` field) and no crash; a non-OK
upstream is mirrored with `{error, details, status}`; an OK upstream whose
content type is absent or lacks `image` gives 502 with `{error, details}`;
and an OK image upstream gives 200 with `{success: true, image: <base64>}`. -/
theorem proxyGenerate_status_spec (key prompt : String) (u : UpstreamResponse)
    (hkey : key ≠ "") (hprompt : prompt ≠ "") :
    ((proxyGenerate none prompt u).status = 401 ∧
     (proxyGenerate none prompt u).error = some "API key is required" ∧
     (proxyGenerate none prompt u).details = none) ∧
    ((proxyGenerate (some key) "" u).status = 400 ∧
     (proxyGenerate (some key) "" u).error = some "Prompt is required" ∧
     (proxyGenerate (some key) "" u).details = none) ∧
    (u.ok = false →
      (proxyGenerate (some key) prompt u).status = u.status ∧
      (proxyGenerate (some key) prompt u).error = some "Error from Clipdrop API" ∧
      (proxyGenerate (some key) prompt u).details = some u.bodyText ∧
      (proxyGenerate (some key) prompt u).bodyStatus = some u.status) ∧
    (u.ok = true → u.contentType = none →
      (proxyGenerate (some key) prompt u).status = 502 ∧
      (proxyGenerate (some key) prompt u).details = some u.bodyText) ∧
    (∀ ct, u.ok = true → u.contentType = some ct →
      charsContains "image".toList ct.toList = false →
      (proxyGenerate (some key) prompt u).status = 502 ∧
      (proxyGenerate (some key) prompt u).details = some u.bodyText) ∧
    (∀ ct, u.ok = true → u.contentType = some ct →
      charsContains "image".toList ct.toList = true →
      proxyGenerate (some key) prompt u =
        { status := 200, success := some true,
          image := some (base64Encode u.bodyBytes),
          error := none, details := none, bodyStatus := none }) := by
  refine ⟨by simp [proxyGenerate], by simp [proxyGenerate, hkey], ?_, ?_, ?_, ?_⟩
  · intro hok
    simp [proxyGenerate, hkey, hprompt, hok]
  · intro hok hct
    simp [proxyGenerate, hkey, hprompt, hok, hct]
  · intro ct hok hct hni
    simp at hni
    simp [proxyGenerate, hkey, hprompt, hok, hct, hni]
  · intro ct hok hct hi
    simp at hi
    simp [proxyGenerate, hkey, hprompt, hok, hct, hi]

/-- C9 witness: a keyed, prompted request against an OK `image/png` upstream
yields 200 with the base64 image body. -/
theorem proxyGenerate_status_spec_witness :
    proxyGenerate (some "k") "p" upstreamImg =
      { status := 200, success := some true,
        image := some (base64Encode upstreamImg.bodyBytes),
        error := none, details := none, bodyStatus := none } :=
  (proxyGenerate_status_spec "k" "p" upstreamImg (by decide)
    (by decide)).2.2.2.2.2 "image/png" rfl rfl (by decide)

/-- A hit returned by the downward scan is a member of the list and contains
the query point. -/
theorem hitImage_mem (l : List PlacedImage) (x y : ℚ) (img : PlacedImage)
    (h : hitImage l x y = some img) :
    img ∈ l ∧ containsPoint img x y = true := by
  have h2 : l.reverse.find? (fun image => containsPoint image x y) = some img := h
  have h3 := List.find?_some h2
  exact ⟨List.mem_reverse.mp (List.mem_of_find?_eq_some h2), h3⟩

/-- On a hit, `selectImageAt` rebuilds the list as the cleared non-hit images
followed by the promoted hit image, records the hit id, and reports `true`. -/
theorem selectImageAt_hit_eq (s : RegistryState) (x y : ℚ) (img : PlacedImage)
    (h : hitImage s.placedImages x y = some img) :
    (selectImageAt s x y).1.placedImages =
      (s.placedImages.map (fun image => { image with selected := false })).filter
        (fun image => image.id ≠ img.id) ++ [{ img with selected := true }] ∧
    (selectImageAt s x y).1.selectedImageId = some img.id ∧
    (selectImageAt s x y).2 = true := by
  rw [selectImageAt, h]
  exact ⟨rfl, rfl, rfl⟩

/-- Clearing the selected flags commutes with filtering on ids. -/
theorem clear_filter_comm (l : List PlacedImage) (i : String) :
    (l.map (fun image => { image with selected := false })).filter
      (fun image => image.id ≠ i) =
    (l.filter (fun image => image.id ≠ i)).map
      (fun image => { image with selected := false }) := by
  rw [List.filter_map]
  apply congrArg
  apply List.filter_congr
  intro e he
  rfl

/-- Filtering away the id of the split-out element removes exactly it when no
other element carries that id. -/
theorem filter_ne_of_split (a b : List PlacedImage) (img : PlacedImage)
    (ha : ∀ e ∈ a, e.id ≠ img.id) (hb : ∀ e ∈ b, e.id ≠ img.id) :
    (a ++ img :: b).filter (fun image => image.id ≠ img.id) = a ++ b := by
  rw [List.filter_append, List.filter_cons_of_neg (by simp)]
  rw [List.filter_eq_self.mpr (fun e he => by simpa using ha e he),
      List.filter_eq_self.mpr (fun e he => by simpa using hb e he)]

/-- A nodup id list splits around a member: no other element has its id. -/
theorem nodup_ids_split (a b : List PlacedImage) (img : PlacedImage)
    (hnd : ((a ++ img :: b).map PlacedImage.id).Nodup) :
    (∀ e ∈ a, e.id ≠ img.id) ∧ (∀ e ∈ b, e.id ≠ img.id) := by
  rw [List.map_append, List.map_cons, List.nodup_append] at hnd
  obtain ⟨hna, hnb, hdisj⟩ := hnd
  constructor
  · intro e he heq
    exact hdisj (List.mem_map_of_mem PlacedImage.id he) (by simp [heq])
  · intro e he heq
    rw [List.nodup_cons] at hnb
    exact hnb.1 (heq ▸ List.mem_map_of_mem PlacedImage.id he)

/-- The hit at (50, 50) among the two stacked images A then B is B. -/
theorem hitImage_regAB : hitImage regAB.placedImages 50 50 = some imgB100 := by
  have h2 : regAB.placedImages.length = 2 := rfl
  have := find?_reverse_eq_of_last regAB.placedImages
    (fun img => containsPoint img 50 50) 1 (by omega)
    (by norm_num [regAB, imgA100, imgB100, containsPoint])
    (by intro j hj hlt; omega)
  exact this

/-- C2: after a successful selection the hit image is the last element of the
order, flagged selected, with every other image deselected (so it is the only
selected element); and each registry operation — select (hit or miss), place,
deselectAll, deleteSelected — preserves the at-most-one-selected invariant. -/
theorem selection_single_invariant (s : RegistryState) (x y : ℚ)
    (url : String) (pos : Point) (nw nh : ℚ) (nid : String)
    (hone : selectedCount s.placedImages ≤ 1) :
    (∀ img, hitImage s.placedImages x y = some img →
      (selectImageAt s x y).1.placedImages.getLast? = some { img with selected := true } ∧
      (selectImageAt s x y).1.selectedImageId = some img.id ∧
      selectedCount (selectImageAt s x y).1.placedImages = 1 ∧
      ∀ im ∈ (selectImageAt s x y).1.placedImages.dropLast, im.selected = false) ∧
    selectedCount (selectImageAt s x y).1.placedImages ≤ 1 ∧
    selectedCount (placeImageOnCanvas s url pos nw nh nid).placedImages ≤ 1 ∧
    selectedCount (deselectAllImages s).placedImages = 0 ∧
    selectedCount (deleteSelectedImage s).placedImages ≤ 1 := by
  have hclear : ∀ (l : List PlacedImage) (q : PlacedImage → Bool),
      ∀ im ∈ (l.map (fun image => { image with selected := false })).filter q,
        im.selected = false := by
    intro l q im hm
    rw [List.mem_filter] at hm
    obtain ⟨hm1, _⟩ := hm
    rw [List.mem_map] at hm1
    obtain ⟨a, _, rfl⟩ := hm1
    rfl
  have hcount0 : ∀ l : List PlacedImage, (∀ im ∈ l, im.selected = false) →
      selectedCount l = 0 := by
    intro l hl
    rw [selectedCount, List.length_eq_zero]
    rw [List.filter_eq_nil_iff]
    intro a ha
    simp [hl a ha]
  have hhit : ∀ img, hitImage s.placedImages x y = some img →
      (selectImageAt s x y).1.placedImages.getLast? = some { img with selected := true } ∧
      (selectImageAt s x y).1.selectedImageId = some img.id ∧
      selectedCount (selectImageAt s x y).1.placedImages = 1 ∧
      ∀ im ∈ (selectImageAt s x y).1.placedImages.dropLast, im.selected = false := by
    intro img h
    obtain ⟨hlist, hid, _⟩ := selectImageAt_hit_eq s x y img h
    rw [hlist]
    refine ⟨List.getLast?_concat _, hid, ?_, ?_⟩
    · rw [selectedCount, List.filter_append]
      rw [List.filter_eq_nil_iff.mpr (fun a ha => by simp [hclear _ _ a ha])]
      simp
    · rw [List.dropLast_concat]
      exact hclear _ _
  refine ⟨hhit, ?_, ?_, ?_, ?_⟩
  · cases hh : hitImage s.placedImages x y with
    | none =>
      have : selectImageAt s x y = (s, false) := by rw [selectImageAt, hh]
      rw [this]
      exact hone
    | some img =>
      rw [(hhit img hh).2.2.1]
  · rw [placeImageOnCanvas]
    rw [selectedCount, List.filter_append]
    simp only [List.filter_cons, List.filter_nil]
    rw [if_neg (by simp)]
    simpa [selectedCount] using hone
  · exact hcount0 _ (by
      intro im hm
      rw [deselectAllImages] at hm
      simp only [List.mem_map] at hm
      obtain ⟨a, _, rfl⟩ := hm
      rfl)
  · rw [deleteSelectedImage]
    cases hsel : s.selectedImageId with
    | none => exact hone
    | some i =>
      refine le_trans ?_ hone
      rw [selectedCount, selectedCount]
      exact List.Sublist.length_le (List.Sublist.filter _ (List.filter_sublist _))

/-- C2 witness: selecting at (50, 50) in the two-image registry leaves B,
selected, as the last element; deselectAll leaves no selection. -/
theorem selection_single_invariant_witness :
    (selectImageAt regAB 50 50).1.placedImages.getLast? =
      some { imgB100 with selected := true } ∧
    selectedCount (deselectAllImages regAB).placedImages = 0 :=
  ⟨((selection_single_invariant regAB 50 50 "u" ⟨0, 0⟩ 1 1 "n" (by decide)).1 imgB100
      hitImage_regAB).1,
   (selection_single_invariant regAB 50 50 "u" ⟨0, 0⟩ 1 1 "n" (by decide)).2.2.2.1⟩

/-- C10: a successful hit permutes the placed images — none is created or
destroyed (the lists agree as multisets once the selected flag is ignored and
have equal length), the hit image moves to the end, and the remaining images
keep their relative order and every field except the cleared selected flag. -/
theorem selectImageAt_hit_permutes (s : RegistryState) (x y : ℚ) (img : PlacedImage)
    (hhit : hitImage s.placedImages x y = some img)
    (hnd : (s.placedImages.map PlacedImage.id).Nodup) :
    List.Perm ((selectImageAt s x y).1.placedImages.map coreFields)
      (s.placedImages.map coreFields) ∧
    (selectImageAt s x y).1.placedImages.length = s.placedImages.length ∧
    (selectImageAt s x y).1.placedImages.getLast? = some { img with selected := true } ∧
    (selectImageAt s x y).1.placedImages.dropLast =
      (s.placedImages.filter (fun image => image.id ≠ img.id)).map
        (fun image => { image with selected := false }) := by
  obtain ⟨hmem, _⟩ := hitImage_mem _ _ _ _ hhit
  obtain ⟨a, b, hsplit⟩ := List.append_of_mem hmem
  obtain ⟨hlist, _, _⟩ := selectImageAt_hit_eq s x y img hhit
  have hne := nodup_ids_split a b img (hsplit ▸ hnd)
  have hfilter : s.placedImages.filter (fun image => image.id ≠ img.id) = a ++ b := by
    rw [hsplit]
    exact filter_ne_of_split a b img hne.1 hne.2
  rw [hlist, clear_filter_comm, hfilter]
  have hperm : List.Perm
      (((a ++ b).map (fun image => { image with selected := false })).map coreFields ++
        [coreFields { img with selected := true }])
      (s.placedImages.map coreFields) := by
    rw [List.map_map]
    have hcc : (a ++ b).map (coreFields ∘ fun image => { image with selected := false }) =
        (a ++ b).map coreFields :=
      List.map_congr_left (fun e _ => rfl)
    rw [hcc, hsplit]
    have h2 : coreFields { img with selected := true } = coreFields img := rfl
    rw [h2]
    simp only [List.map_append, List.map_cons, List.append_assoc]
    exact List.Perm.append_left _ (List.perm_append_singleton _ _)
  refine ⟨by simpa using hperm, ?_, List.getLast?_concat _, by rw [List.dropLast_concat]⟩
  rw [hsplit]
  simp only [List.length_append, List.length_map, List.length_cons, List.length_nil]
  omega

/-- C10 witness: selecting B in the two-image registry keeps both images,
with A (deselected) first and B (selected) last. -/
theorem selectImageAt_hit_permutes_witness :
    (selectImageAt regAB 50 50).1.placedImages.length = regAB.placedImages.length ∧
    (selectImageAt regAB 50 50).1.placedImages.getLast? =
      some { imgB100 with selected := true } :=
  ⟨(selectImageAt_hit_permutes regAB 50 50 imgB100 hitImage_regAB (by decide)).2.1,
   (selectImageAt_hit_permutes regAB 50 50 imgB100 hitImage_regAB (by decide)).2.2.1⟩

/-- C8: in a coherent state (the tracked id matches the selected flags) with
distinct ids, `deleteSelectedImage` removes exactly the selected element,
keeping every other image unchanged and in order; with nothing selected it
leaves the sequence untouched. -/
theorem deleteSelectedImage_removes_selected (s : RegistryState)
    (hco : coherentSelection s)
    (hnd : (s.placedImages.map PlacedImage.id).Nodup) :
    (deleteSelectedImage s).placedImages =
      s.placedImages.filter (fun img => img.selected = false) ∧
    ((∀ img ∈ s.placedImages, img.selected = false) →
      (deleteSelectedImage s).placedImages = s.placedImages) := by
  have hmain : (deleteSelectedImage s).placedImages =
      s.placedImages.filter (fun img => img.selected = false) := by
    rw [deleteSelectedImage]
    cases h : s.selectedImageId with
    | none =>
      rw [List.filter_eq_self.mpr ?_]
      intro img hm
      by_cases hsel : img.selected = true
      · exact absurd (h ▸ hco.1 img hm hsel) (by simp)
      · simpa using hsel
    | some i =>
      have h2 := hco.2
      rw [h] at h2
      obtain ⟨img0, hm0, hsel0, hid0⟩ := h2
      apply List.filter_congr
      intro e he
      by_cases hsel : e.selected = true
      · have := hco.1 e he hsel
        rw [h] at this
        have heq : e.id = i := (Option.some.inj this).symm
        simp [heq, hsel]
      · have hne : e.id ≠ i := by
          intro heq
          have : e = img0 :=
            List.inj_on_of_nodup_map hnd he hm0 (by rw [heq, hid0])
          rw [this] at hsel
          exact hsel hsel0
        simp [hne, hsel]
  exact ⟨hmain, fun hall => by rw [hmain, List.filter_eq_self.mpr
    (fun img hm => by simp [hall img hm])]⟩

/-- C8 witness: deleting in the state where B is selected removes exactly B
and keeps A. -/
theorem deleteSelectedImage_removes_selected_witness :
    (deleteSelectedImage regDel).placedImages =
      regDel.placedImages.filter (fun img => img.selected = false) :=
  (deleteSelectedImage_removes_selected regDel
    ⟨by decide,
     ⟨{ id := "B", url := "b.png", x := 200, y := 200, width := 100, height := 100,
        selected := true }, by decide, rfl, rfl⟩⟩
    (by decide)).1
